import Mathlib

/-!
Verification of the caching and query core of the vibe-cms-sdk client
library. The definitions below are a shallow embedding of the TypeScript
source (`core/cache.ts`, `core/collection.ts`, `core/result.ts`,
`core/asset.ts`): browser storage is modelled as an association list from
keys to stored strings (abstracted by their parse status), machine
integers as `Nat`/`Int` with explicit 32-bit truncation where the source
relies on JavaScript bitwise coercion, thrown exceptions as `Except`, and
each asynchronous operation as a pure function that takes the transport's
response as an argument and returns the updated cache state together with
the list of network requests it issued.
-/

/-- Default cache TTL in milliseconds (source constant `DEFAULT_TTL`, 5 minutes). -/
def DEFAULT_TTL : Nat := 300000

/-- Cache key namespace (source constant `CACHE_KEY_PREFIX`, the string vms). -/
def vmsKeyHead : String := "vms"

/-- Persisted cache entry shape `{data, timestamp, ttl?}` from `cache.ts`.
`data` is `Option P` because callers store the JavaScript value `null`
(e.g. negative lookup results); `none` models that stored `null`. -/
structure CacheEntry (P : Type) where
  data : Option P
  timestamp : Nat
  ttl : Option Nat
deriving Repr, DecidableEq

/-- Parse status of one raw string held by the storage adapter.
`emptyStr` is the empty string (falsy in JavaScript, and `JSON.parse`
fails on it); `corrupt` is any other string on which `JSON.parse` into a
`CacheEntry` throws; `entry e` is the serialization of the entry `e`. -/
inductive StoredVal (P : Type) where
  | emptyStr
  | corrupt
  | entry (e : CacheEntry P)
deriving Repr, DecidableEq

/-- The string-keyed storage adapter contents, as an association list. -/
abbrev Storage (P : Type) := List (String × StoredVal P)

/-- Adapter `getItem`: first binding for the key, if any. -/
def Storage.getItem {P : Type} : Storage P → String → Option (StoredVal P)
  | [], _ => none
  | (k2, v) :: rest, k => if k = k2 then some v else Storage.getItem rest k

/-- Adapter `removeItem`: drop every binding for the key. -/
def Storage.removeItem {P : Type} : Storage P → String → Storage P
  | [], _ => []
  | (k2, v) :: rest, k =>
    if k2 = k then Storage.removeItem rest k else (k2, v) :: Storage.removeItem rest k

/-- Adapter `setItem`: replace any binding for the key with the new value. -/
def Storage.setItem {P : Type} (st : Storage P) (k : String) (v : StoredVal P) : Storage P :=
  st.removeItem k ++ [(k, v)]

/-- Adapter `keys()`: all stored keys. -/
def Storage.keys {P : Type} (st : Storage P) : List String :=
  st.map Prod.fst

/-- The `BrowserCache` state: a storage adapter, the configured default
TTL and the enabled flag (`cache.ts`). -/
structure BrowserCache (P : Type) where
  storage : Storage P
  ttl : Nat
  enabled : Bool

/-- `BrowserCache.get` (`cache.ts` lines 435-462). Mirrors the source:
disabled cache answers null; an absent or empty raw string (the JS
truthiness check `if (!item) return null`) answers null without touching
storage; a raw string on which `JSON.parse` throws is removed and null is
answered; an entry whose age `now - timestamp` exceeds the effective TTL
`entry.ttl ?? this.ttl` is removed and null is answered; otherwise the
entry's `data` is answered. Subtraction is `Nat` truncated, matching the
JavaScript comparison (a negative age is never `>` a nonnegative TTL).
Returns the answered value and the possibly mutated cache. -/
def BrowserCache.get {P : Type} (c : BrowserCache P) (key : String) (now : Nat) :
    Option P × BrowserCache P :=
  if !c.enabled then (none, c)
  else
    match c.storage.getItem key with
    | none => (none, c)
    | some .emptyStr => (none, c)
    | some .corrupt => (none, { c with storage := c.storage.removeItem key })
    | some (.entry e) =>
      let entryTtl := e.ttl.getD c.ttl
      if entryTtl < now - e.timestamp then
        (none, { c with storage := c.storage.removeItem key })
      else
        (e.data, c)

/-- `BrowserCache.set` (`cache.ts` lines 467-484): no-op when disabled,
otherwise serialize `{data, timestamp := now, ttl := ttlArg ?? this.ttl}`
and write it under the key. -/
def BrowserCache.set {P : Type} (c : BrowserCache P) (key : String) (data : Option P)
    (ttlArg : Option Nat) (now : Nat) : BrowserCache P :=
  if !c.enabled then c
  else
    { c with
      storage :=
        c.storage.setItem key (.entry { data := data, timestamp := now, ttl := some (ttlArg.getD c.ttl) }) }

/-- `BrowserCache.has` (`cache.ts` lines 503-506): a key is present when
`get` answers a non-null value; the cache mutation done by `get` is kept. -/
def BrowserCache.has {P : Type} (c : BrowserCache P) (key : String) (now : Nat) :
    Bool × BrowserCache P :=
  let r := c.get key now
  (r.1.isSome, r.2)

/-- String prefix test, mirroring `key.startsWith(localePrefix)`. -/
def strStartsWith (s pfx : String) : Bool :=
  pfx.data.isPrefixOf s.data

/-- `BrowserCache.clearLocaleCache` (`cache.ts` lines 572-588): when
enabled, enumerate the stored keys, keep those starting with
`vms:{projectId}:{locale}:` and remove each of them. -/
def BrowserCache.clearLocaleCache {P : Type} (c : BrowserCache P) (projectId locale : String) :
    BrowserCache P :=
  if !c.enabled then c
  else
    let pfx := vmsKeyHead ++ ":" ++ projectId ++ ":" ++ locale ++ ":"
    let localeKeys := c.storage.keys.filter (fun k => strStartsWith k pfx)
    { c with storage := localeKeys.foldl (fun st k => st.removeItem k) c.storage }

/-- Values that can appear in a cache-key parameter object (the source
only puts numbers such as `limit`/`width`/`height` and strings such as
`variant` there). -/
inductive ParamValue where
  | num (n : Int)
  | str (s : String)
deriving Repr, DecidableEq

/-- JSON string escaping for the characters that can occur in parameter
keys and string values (quote and backslash). -/
def jsonEscapeChar (c : Char) : String :=
  if c = Char.ofNat 34 then "\\\""
  else if c = Char.ofNat 92 then "\\\\"
  else String.singleton c

/-- Escape a whole string for inclusion in a JSON literal. -/
def jsonEscape (s : String) : String :=
  String.join (s.data.map jsonEscapeChar)

/-- Rendering of one parameter value by `JSON.stringify`. -/
def renderParamValue : ParamValue → String
  | .num n => toString n
  | .str s => "\"" ++ jsonEscape s ++ "\""

/-- Association-list lookup used to read a parameter object field. -/
def lookupParam : List (String × ParamValue) → String → Option ParamValue
  | [], _ => none
  | (k2, v) :: rest, k => if k = k2 then some v else lookupParam rest k

/-- `JSON.stringify(params, Object.keys(params).sort())`: the replacer
array is the sorted key list, so fields are emitted in sorted key order
regardless of the object's insertion order. -/
def serializeParams (ps : List (String × ParamValue)) : String :=
  let ks := List.insertionSort (fun a b => a ≤ b) (ps.map Prod.fst)
  let fields := ks.filterMap (fun k =>
    (lookupParam ps k).map (fun v => "\"" ++ jsonEscape k ++ "\":" ++ renderParamValue v))
  "\x7b" ++ String.intercalate "," fields ++ "\x7d"

/-- Truncation to a signed 32-bit integer (JavaScript `x & x` / `ToInt32`). -/
def toInt32 (n : Int) : Int :=
  ((n + 2 ^ 31) % 2 ^ 32) - 2 ^ 31

/-- One step of the source's `simpleHash` loop:
`hash = ((hash << 5) - hash) + char` followed by `hash = hash & hash`.
The shift is itself a 32-bit operation in JavaScript. -/
def hashStep (h : Int) (c : Nat) : Int :=
  toInt32 (toInt32 (h * 32) - h + c)

/-- Base-36 digit characters used by `Number.prototype.toString(36)`. -/
def base36Digit (n : Nat) : Char :=
  if n < 10 then Char.ofNat (48 + n) else Char.ofNat (87 + n)

/-- Fuelled base-36 digit expansion (most significant digit first). -/
def toBase36Aux : Nat → Nat → List Char
  | 0, _ => []
  | _ + 1, 0 => []
  | fuel + 1, n => toBase36Aux fuel (n / 36) ++ [base36Digit (n % 36)]

/-- `Number.prototype.toString(36)` on a nonnegative integer. -/
def toBase36 (n : Nat) : String :=
  if n = 0 then "0" else String.mk (toBase36Aux n n)

/-- `BrowserCache.simpleHash` (`cache.ts` lines 593-604): the 32-bit
polynomial string hash, made nonnegative with `Math.abs` and printed in
base 36. Characters are hashed by their code unit (`charCodeAt`). -/
def BrowserCache.simpleHash (s : String) : String :=
  if s.data.length = 0 then "0"
  else toBase36 (s.data.foldl (fun h c => hashStep h c.toNat) 0).natAbs

/-- The `CacheKeyComponents` record from `types/cache.ts`. `locale` is
optional here because `generateKey` itself supplies the default. -/
structure CacheKeyComponents where
  projectId : String
  collectionSlug : Option String := none
  assetId : Option String := none
  queryType : String
  itemId : Option String := none
  params : Option (List (String × ParamValue)) := none
  locale : Option String := none
deriving Repr, DecidableEq

/-- `keyParts.push(itemId)` happens only when `itemId` is truthy, so an
absent or empty item id contributes no segment. -/
def itemSegs : Option String → List String
  | some id => if id = "" then [] else [id]
  | none => []

/-- The optional trailing parameter-hash segment: present only when the
parameter object exists and has at least one key. -/
def paramSegs : Option (List (String × ParamValue)) → List String
  | some ps => if ps.isEmpty then [] else [BrowserCache.simpleHash (serializeParams ps)]
  | none => []

/-- Segment list built by `BrowserCache.generateKey` (`cache.ts` lines
513-544) before joining, or the thrown `InvalidArgument` message. Asset
query types take the asset shape; every other query type takes the
collection shape. The truthiness checks on `assetId` and
`collectionSlug` reject both an absent and an empty string value. -/
def generateKeyParts (comp : CacheKeyComponents) : Except String (List String) :=
  if comp.queryType = "asset-url" ∨ comp.queryType = "asset-download" then
    match comp.assetId with
    | some aid =>
      if aid = "" then .error "Asset ID is required for asset operations"
      else .ok ([vmsKeyHead, comp.projectId, comp.locale.getD "en-US", "asset",
        comp.queryType, aid] ++ paramSegs comp.params)
    | none => .error "Asset ID is required for asset operations"
  else
    match comp.collectionSlug with
    | some slug =>
      if slug = "" then .error "Collection slug is required for collection operations"
      else .ok ([vmsKeyHead, comp.projectId, comp.locale.getD "en-US", slug, comp.queryType]
        ++ itemSegs comp.itemId ++ paramSegs comp.params)
    | none => .error "Collection slug is required for collection operations"

/-- `keyParts.join(':')`. -/
def joinColon : List String → String
  | [] => ""
  | [s] => s
  | s :: rest => s ++ ":" ++ joinColon rest

/-- `BrowserCache.generateKey`: the joined segment list, or the thrown
validation message. -/
def BrowserCache.generateKey (comp : CacheKeyComponents) : Except String String :=
  (generateKeyParts comp).map joinColon

/-- UTF-8 byte sequence of one character, used by the URL encoders. -/
def utf8Bytes (c : Char) : List Nat :=
  let n := c.toNat
  if n < 128 then [n]
  else if n < 2048 then [192 + n / 64, 128 + n % 64]
  else if n < 65536 then [224 + n / 4096, 128 + (n / 64) % 64, 128 + n % 64]
  else [240 + n / 262144, 128 + (n / 4096) % 64, 128 + (n / 64) % 64, 128 + n % 64]

/-- Uppercase hexadecimal digit. -/
def hexUpperDigit (n : Nat) : Char :=
  if n < 10 then Char.ofNat (48 + n) else Char.ofNat (55 + n)

/-- Percent-encoding of one byte. -/
def pctByte (b : Nat) : String :=
  "%" ++ String.mk [hexUpperDigit (b / 16), hexUpperDigit (b % 16)]

/-- Characters `encodeURIComponent` leaves unescaped. -/
def isUriUnreserved (c : Char) : Bool :=
  c.isAlphanum || c = '-' || c = '_' || c = '.' || c = '!' || c = '~' ||
    c = '*' || c = Char.ofNat 39 || c = '(' || c = ')'

/-- JavaScript `encodeURIComponent`. -/
def encodeURIComponent (s : String) : String :=
  String.join (s.data.map (fun c =>
    if isUriUnreserved c then String.singleton c
    else String.join ((utf8Bytes c).map pctByte)))

/-- One byte of `application/x-www-form-urlencoded` serialization, as
produced by `URLSearchParams.toString()`. -/
def formEncodeByte (b : Nat) : String :=
  if b = 32 then "+"
  else if b = 42 || b = 45 || b = 46 || b = 95 ||
      (48 ≤ b && b ≤ 57) || (65 ≤ b && b ≤ 90) || (97 ≤ b && b ≤ 122) then
    String.singleton (Char.ofNat b)
  else pctByte b

/-- `URLSearchParams` encoding of one component. -/
def formEncode (s : String) : String :=
  String.join (s.data.map (fun c => String.join ((utf8Bytes c).map formEncodeByte)))

/-- `URLSearchParams.toString()` over an append-ordered pair list. -/
def searchParamsToString (ps : List (String × String)) : String :=
  String.intercalate "&" (ps.map (fun kv => formEncode kv.1 ++ "=" ++ formEncode kv.2))

/-- Field values stored in a content item's open `data` map. -/
inductive FieldValue where
  | nullv
  | str (s : String)
  | num (n : Int)
  | arr (elems : List FieldValue)

/-- A published content item (`PublicContentItem`): id, open string-keyed
data map, locale tag. -/
structure Item where
  id : String
  data : List (String × FieldValue)
  locale : String

/-- Association-list lookup in an item's `data` map. -/
def lookupField : List (String × FieldValue) → String → Option FieldValue
  | [], _ => none
  | (k2, v) :: rest, k => if k = k2 then some v else lookupField rest k

/-- The JavaScript read `item?.data?.[fieldName] ?? null`: a missing
field and a stored `null`/`undefined` both read as null. -/
def Item.fieldValue (it : Item) (name : String) : FieldValue :=
  (lookupField it.data name).getD .nullv

/-- JavaScript truthiness of a field value (`if (!assetId)`): null, the
empty string and the number zero are falsy; every array is truthy. -/
def jsFalsyV : FieldValue → Bool
  | .nullv => true
  | .str s => s = ""
  | .num n => n = 0
  | .arr _ => false

mutual

/-- One element of a JavaScript array join: null elements join as the
empty string, other values as their `String(v)` coercion. -/
def jsToStringHead : FieldValue → String
  | .nullv => ""
  | .str s => s
  | .num n => toString n
  | .arr ws => jsToStringList ws

/-- JavaScript `Array.prototype.join(',')` over field values. -/
def jsToStringList : List FieldValue → String
  | [] => ""
  | [v] => jsToStringHead v
  | v :: vs => jsToStringHead v ++ "," ++ jsToStringList vs

end

/-- JavaScript `String(v)` coercion for the values the source can pass
to `generateAssetUrl`: strings unchanged, numbers printed, null printed
as the word null, arrays joined with commas. -/
def jsToString : FieldValue → String
  | .nullv => "null"
  | .str s => s
  | .num n => toString n
  | .arr vs => jsToStringList vs

/-- The structured error thrown by the transport (`VibeCMSError`):
message plus optional HTTP status. -/
structure VmsError where
  message : String := ""
  status : Option Nat := none
deriving Repr, DecidableEq

/-- The raw payload wrapped by a `CollectionResult`: exactly one of
`null`, a single item, or an array of items (`CollectionQueryResult`). -/
inductive CollectionQueryResult (T : Type) where
  | nullr
  | single (t : T)
  | arr (ts : List T)

/-- What the cache stores for collection queries: `first`/`item` cache a
single item, `many`/`all` cache an item list. The stored JavaScript
value is untyped; the wrapping `CollectionResult` dispatches on
`Array.isArray` at use time, which this sum reproduces. -/
inductive CQPayload where
  | one (it : Item)
  | list (its : List Item)

/-- Re-wrapping of a raw cached value by `new CollectionResult(cached)`. -/
def CQPayload.toResultData : CQPayload → CollectionQueryResult Item
  | .one it => .single it
  | .list its => .arr its

/-- Outcome of one query call: the returned (or thrown) result, the
cache state afterwards, and the endpoints requested over the network in
order. -/
structure QueryOutcome where
  result : Except VmsError (CollectionQueryResult Item)
  cache : BrowserCache CQPayload
  requests : List String

/-- Listing endpoint used by `first`/`many`/`all`
(`/api/public/{projectId}/{collectionSlug}?locale=...`). It never
carries a limit parameter. -/
def listEndpoint (projectId collectionSlug locale : String) : String :=
  "/api/public/" ++ projectId ++ "/" ++ collectionSlug ++ "?locale=" ++ encodeURIComponent locale

/-- Single-item endpoint used by `item`
(`/api/public/{projectId}/{collectionSlug}/{itemId}?locale=...`). -/
def itemEndpoint (projectId collectionSlug itemId locale : String) : String :=
  "/api/public/" ++ projectId ++ "/" ++ collectionSlug ++ "/" ++ itemId ++
    "?locale=" ++ encodeURIComponent locale

/-- Key components used by `CollectionQuery.item`. -/
def itemKeyComponents (projectId collectionSlug locale itemId : String) : CacheKeyComponents :=
  { projectId := projectId, collectionSlug := some collectionSlug, queryType := "item",
    itemId := some itemId, locale := some locale }

/-- `CollectionQuery.item` (`collection.ts` lines 147-183). On a cache
hit the cached value is wrapped and no request is issued. On a miss the
single-item endpoint is fetched: a success is cached with the default
TTL and wrapped; an error whose `status` is 404 caches `null` for 60000
milliseconds and yields the null result; any other error is re-thrown.
The transport's answer is passed in as `transport`. -/
def CollectionQuery.item (projectId collectionSlug locale itemId : String)
    (transport : Except VmsError Item) (now : Nat) (c : BrowserCache CQPayload) : QueryOutcome :=
  match BrowserCache.generateKey (itemKeyComponents projectId collectionSlug locale itemId) with
  | .error m => { result := .error { message := m }, cache := c, requests := [] }
  | .ok key =>
    let r := c.get key now
    match r.1 with
    | some p => { result := .ok p.toResultData, cache := r.2, requests := [] }
    | none =>
      let endpoint := itemEndpoint projectId collectionSlug itemId locale
      match transport with
      | .ok it =>
        { result := .ok (.single it),
          cache := r.2.set key (some (.one it)) none now,
          requests := [endpoint] }
      | .error e =>
        if e.status = some 404 then
          { result := .ok .nullr,
            cache := r.2.set key none (some 60000) now,
            requests := [endpoint] }
        else
          { result := .error e, cache := r.2, requests := [endpoint] }

/-- The `QueryOptions` record: optional client-side limit. -/
structure QueryOptions where
  limit : Option Int := none

/-- Key components used by `CollectionQuery.many`: the spread
`...(limit ? { params: { limit } } : {})` adds a parameter object only
when `limit` is truthy (present and nonzero). -/
def manyKeyComponents (projectId collectionSlug locale : String) (options : QueryOptions) :
    CacheKeyComponents :=
  { projectId := projectId, collectionSlug := some collectionSlug, queryType := "many",
    locale := some locale,
    params :=
      match options.limit with
      | some l => if l = 0 then none else some [("limit", ParamValue.num l)]
      | none => none }

/-- `CollectionQuery.many` (`collection.ts` lines 95-133). On a miss the
full listing endpoint is fetched (the request never carries the limit),
the item list is truncated client-side when a positive limit was given,
and the truncated list is cached with the default TTL and wrapped. -/
def CollectionQuery.many (projectId collectionSlug locale : String) (options : QueryOptions)
    (transport : Except VmsError (List Item)) (now : Nat) (c : BrowserCache CQPayload) :
    QueryOutcome :=
  match BrowserCache.generateKey (manyKeyComponents projectId collectionSlug locale options) with
  | .error m => { result := .error { message := m }, cache := c, requests := [] }
  | .ok key =>
    let r := c.get key now
    match r.1 with
    | some p => { result := .ok p.toResultData, cache := r.2, requests := [] }
    | none =>
      let endpoint := listEndpoint projectId collectionSlug locale
      match transport with
      | .ok allItems =>
        let items :=
          match options.limit with
          | some l => if 0 < l then allItems.take l.toNat else allItems
          | none => allItems
        { result := .ok (.arr items),
          cache := r.2.set key (some (.list items)) none now,
          requests := [endpoint] }
      | .error e =>
        { result := .error e, cache := r.2, requests := [endpoint] }

/-- `CollectionQuery.all` (`collection.ts` lines 139-141): exactly
`many()` with no options. -/
def CollectionQuery.all (projectId collectionSlug locale : String)
    (transport : Except VmsError (List Item)) (now : Nat) (c : BrowserCache CQPayload) :
    QueryOutcome :=
  CollectionQuery.many projectId collectionSlug locale {} transport now c

/-- Key components used by `CollectionQuery.first`. -/
def firstKeyComponents (projectId collectionSlug locale : String) : CacheKeyComponents :=
  { projectId := projectId, collectionSlug := some collectionSlug, queryType := "first",
    locale := some locale }

/-- `CollectionQuery.first` (`collection.ts` lines 33-89). On a miss the
full listing is fetched; `items[0] || null` is cached — the item with
the default TTL when present, otherwise `null` for 60000 milliseconds —
and wrapped. -/
def CollectionQuery.first (projectId collectionSlug locale : String)
    (transport : Except VmsError (List Item)) (now : Nat) (c : BrowserCache CQPayload) :
    QueryOutcome :=
  match BrowserCache.generateKey (firstKeyComponents projectId collectionSlug locale) with
  | .error m => { result := .error { message := m }, cache := c, requests := [] }
  | .ok key =>
    let r := c.get key now
    match r.1 with
    | some p => { result := .ok p.toResultData, cache := r.2, requests := [] }
    | none =>
      let endpoint := listEndpoint projectId collectionSlug locale
      match transport with
      | .ok items =>
        match items.head? with
        | some it =>
          { result := .ok (.single it),
            cache := r.2.set key (some (.one it)) none now,
            requests := [endpoint] }
        | none =>
          { result := .ok .nullr,
            cache := r.2.set key none (some 60000) now,
            requests := [endpoint] }
      | .error e =>
        { result := .error e, cache := r.2, requests := [endpoint] }

/-- Asset id validation pattern from `asset.ts`
(`^[a-zA-Z0-9_-]+$`, ASCII only). -/
def isAssetIdChar (c : Char) : Bool :=
  c.isAlphanum || c = '_' || c = '-'

/-- A string matches the asset id pattern when it is nonempty and made
of pattern characters only. -/
def isValidAssetId (s : String) : Bool :=
  s != "" && s.data.all isAssetIdChar

/-- The `AssetManager` binding: base URL (read from the fetcher),
project id and the client locale it was constructed with. -/
structure AssetManager where
  baseUrl : String
  projectId : String
  locale : String

/-- Options accepted by `generateAssetUrl`. -/
structure AssetUrlOptions where
  variant : Option String := none
  width : Option Int := none
  height : Option Int := none

/-- Query-parameter pairs appended by `generateAssetUrl`, in source
order: `variant` when truthy, then `width`, then `height`, each
dimension validated to be strictly positive when present. The thrown
validation messages are the source's. -/
def buildAssetParams (o : AssetUrlOptions) : Except String (List (String × String)) := do
  let p1 : List (String × String) :=
    match o.variant with
    | some v => if v = "" then [] else [("variant", v)]
    | none => []
  let p2 : List (String × String) ←
    match o.width with
    | some w =>
      if w ≤ 0 then .error "VMS SDK: Asset width must be a positive number"
      else .ok [("width", toString w)]
    | none => .ok []
  let p3 : List (String × String) ←
    match o.height with
    | some h =>
      if h ≤ 0 then .error "VMS SDK: Asset height must be a positive number"
      else .ok [("height", toString h)]
    | none => .ok []
  .ok (p1 ++ p2 ++ p3)

/-- `AssetManager.generateAssetUrl` (`asset.ts` lines 41-84): validate
the id against the pattern, build
`{baseUrl}/api/assets/{projectId}/{assetId}`, and append the serialized
search parameters when any are present. Pure string construction; the
bound locale is never consulted. -/
def AssetManager.generateAssetUrl (m : AssetManager) (assetId : String)
    (o : AssetUrlOptions) : Except String String := do
  if assetId = "" then
    .error "VMS SDK: Asset ID is required"
  else if !isValidAssetId assetId then
    .error "VMS SDK: Invalid asset ID format. Must contain only letters, numbers, underscores, and hyphens."
  else
    let url := m.baseUrl ++ "/api/assets/" ++ m.projectId ++ "/" ++ assetId
    let ps ← buildAssetParams o
    let qs := searchParamsToString ps
    if qs = "" then .ok url else .ok (url ++ "?" ++ qs)

/-- `CollectionResult.count` (`result.ts`): 0 for null, the length for
an array, 1 for a single item. -/
def CollectionResult.count {T : Type} : CollectionQueryResult T → Nat
  | .nullr => 0
  | .single _ => 1
  | .arr ts => ts.length

/-- `CollectionResult.isEmpty`: null or the empty array. -/
def CollectionResult.isEmpty {T : Type} : CollectionQueryResult T → Bool
  | .nullr => true
  | .single _ => false
  | .arr ts => ts.isEmpty

/-- Shape of a `field` extraction: null, one value, or one value per
item. -/
inductive FieldOut where
  | nullr
  | val (v : FieldValue)
  | vals (vs : List FieldValue)

/-- `CollectionResult.field` (`result.ts` lines 678-692): null payloads
yield null; arrays yield one looked-up value per item with null for
missing fields; single items yield the looked-up value. -/
def CollectionResult.field (d : CollectionQueryResult Item) (name : String) : FieldOut :=
  match d with
  | .nullr => .nullr
  | .arr items => .vals (items.map (fun it => it.fieldValue name))
  | .single it => .val (it.fieldValue name)

/-- Shape of an `asset_url` extraction: null, one URL, or a URL list. -/
inductive UrlOut where
  | nullu
  | one (u : String)
  | many (us : List String)

/-- Per-item branch of `asset_url`: a falsy field value yields null; an
array field value maps `generateAssetUrl` over its elements; any other
truthy value is passed to `generateAssetUrl` (after JavaScript string
coercion). Validation exceptions propagate. -/
def itemAssetUrl (m : AssetManager) (o : AssetUrlOptions) (name : String) (it : Item) :
    Except String UrlOut :=
  if jsFalsyV (it.fieldValue name) then .ok .nullu
  else
    match it.fieldValue name with
    | .arr ids => (ids.mapM (fun idv => m.generateAssetUrl (jsToString idv) o)).map .many
    | w => (m.generateAssetUrl (jsToString w) o).map .one

/-- `.filter(url => url !== null)` followed by `.flat()` on the per-item
outcomes of the array branch. -/
def flattenUrlOuts (rs : List UrlOut) : List String :=
  (rs.filterMap (fun r =>
    match r with
    | .nullu => none
    | .one u => some [u]
    | .many us => some us)).flatten

/-- `CollectionResult.asset_url` (`result.ts` lines 702-736): null
payloads yield null; array payloads map the per-item branch, drop the
null outcomes and flatten nested URL arrays one level; single items take
the per-item branch directly. -/
def CollectionResult.asset_url (m : AssetManager) (o : AssetUrlOptions)
    (d : CollectionQueryResult Item) (name : String) : Except String UrlOut :=
  match d with
  | .nullr => .ok .nullu
  | .arr items => (items.mapM (itemAssetUrl m o name)).map (fun rs => .many (flattenUrlOuts rs))
  | .single it => itemAssetUrl m o name it

/-! Helper lemmas about the storage adapter model. -/

theorem Storage.getItem_removeItem_self {P : Type} (st : Storage P) (k : String) :
    (st.removeItem k).getItem k = none := by
  induction st with
  | nil => rfl
  | cons hd tl ih =>
    obtain ⟨k2, v⟩ := hd
    by_cases hk : k2 = k
    · simpa [Storage.removeItem, hk] using ih
    · simpa [Storage.removeItem, Storage.getItem, hk, Ne.symm hk] using ih

theorem Storage.getItem_removeItem_other {P : Type} (st : Storage P) (k k2 : String)
    (h : k2 ≠ k) : (st.removeItem k).getItem k2 = st.getItem k2 := by
  induction st with
  | nil => rfl
  | cons hd tl ih =>
    obtain ⟨k0, v⟩ := hd
    by_cases hk : k0 = k
    · have hne : k2 ≠ k0 := by rw [hk]; exact h
      simpa [Storage.removeItem, Storage.getItem, hk, hne, h] using ih
    · by_cases h2 : k2 = k0
      · simp [Storage.removeItem, Storage.getItem, hk, h2]
      · simpa [Storage.removeItem, Storage.getItem, hk, h2] using ih

theorem Storage.getItem_append {P : Type} (a b : Storage P) (k : String) :
    (a ++ b).getItem k =
      match a.getItem k with
      | some v => some v
      | none => b.getItem k := by
  induction a with
  | nil => rfl
  | cons hd tl ih =>
    by_cases hk : k = hd.1
    · simp [Storage.getItem, hk]
    · simpa [Storage.getItem, hk] using ih

theorem Storage.getItem_setItem_self {P : Type} (st : Storage P) (k : String) (v : StoredVal P) :
    (st.setItem k v).getItem k = some v := by
  simp only [Storage.setItem]
  rw [Storage.getItem_append, Storage.getItem_removeItem_self st k]
  simp [Storage.getItem]

theorem Storage.getItem_setItem_other {P : Type} (st : Storage P) (k k2 : String)
    (v : StoredVal P) (h : k2 ≠ k) : (st.setItem k v).getItem k2 = st.getItem k2 := by
  simp only [Storage.setItem]
  rw [Storage.getItem_append, Storage.getItem_removeItem_other st k k2 h]
  cases hst : st.getItem k2 with
  | some v2 => rfl
  | none => simp [Storage.getItem, h]

theorem Storage.getItem_none_of_not_mem_keys {P : Type} (st : Storage P) (k : String)
    (h : k ∉ st.keys) : st.getItem k = none := by
  induction st with
  | nil => rfl
  | cons hd tl ih =>
    simp only [Storage.keys, List.map_cons, List.mem_cons, not_or] at h
    simpa [Storage.getItem, h.1] using ih (by simpa [Storage.keys] using h.2)

theorem Storage.getItem_foldl_removeItem {P : Type} (ks : List String) (st : Storage P)
    (k : String) :
    (ks.foldl (fun s k2 => s.removeItem k2) st).getItem k =
      if k ∈ ks then none else st.getItem k := by
  induction ks generalizing st with
  | nil => simp
  | cons k0 ks ih =>
    simp only [List.foldl_cons]
    rw [ih]
    by_cases hmem : k ∈ ks
    · simp [hmem]
    · by_cases hk : k = k0
      · simp [hmem, hk, Storage.getItem_removeItem_self]
      · simp [hmem, hk, Storage.getItem_removeItem_other st k0 k hk]

/-! Helper lemmas about string concatenation and the colon join. -/

theorem strAppend_data (s t : String) : (s ++ t).data = s.data ++ t.data :=
  String.data_append s t

theorem strAppend_left_cancel {a x y : String} (h : a ++ x = a ++ y) : x = y := by
  apply String.ext
  have hd := congrArg String.data h
  rw [strAppend_data, strAppend_data] at hd
  exact List.append_cancel_left hd

theorem strAppend_right_cancel {x y b : String} (h : x ++ b = y ++ b) : x = y := by
  apply String.ext
  have hd := congrArg String.data h
  rw [strAppend_data, strAppend_data] at hd
  exact List.append_cancel_right hd

theorem joinColon_cons (s : String) (r : List String) (h : r ≠ []) :
    joinColon (s :: r) = s ++ ":" ++ joinColon r := by
  cases r with
  | nil => exact absurd rfl h
  | cons a t => rfl

theorem joinColon_mid_inj (pre : List String) (x y : String) (suf : List String)
    (h : joinColon (pre ++ x :: suf) = joinColon (pre ++ y :: suf)) : x = y := by
  induction pre with
  | nil =>
    cases suf with
    | nil => simpa [joinColon] using h
    | cons s t =>
      rw [List.nil_append, List.nil_append] at h
      rw [joinColon_cons x (s :: t) (by simp), joinColon_cons y (s :: t) (by simp)] at h
      exact strAppend_right_cancel (strAppend_right_cancel h)
  | cons p ps ih =>
    rw [List.cons_append, List.cons_append] at h
    rw [joinColon_cons p (ps ++ x :: suf) (by simp),
      joinColon_cons p (ps ++ y :: suf) (by simp)] at h
    exact ih (strAppend_left_cancel h)

/-! Helper lemmas about the cache operations. -/

theorem BrowserCache.enabled_get {P : Type} (c : BrowserCache P) (key : String) (now : Nat) :
    ((c.get key now).2).enabled = c.enabled := by
  unfold BrowserCache.get
  by_cases hen : c.enabled
  · simp only [hen, Bool.not_true, Bool.false_eq_true, if_false]
    cases hit : c.storage.getItem key with
    | none => exact hen
    | some sv =>
      cases sv with
      | emptyStr => exact hen
      | corrupt => rfl
      | entry e =>
        dsimp only
        split
        · rfl
        · exact hen
  · simp [hen]

theorem BrowserCache.ttl_get {P : Type} (c : BrowserCache P) (key : String) (now : Nat) :
    ((c.get key now).2).ttl = c.ttl := by
  unfold BrowserCache.get
  by_cases hen : c.enabled
  · simp only [hen, Bool.not_true, Bool.false_eq_true, if_false]
    cases hit : c.storage.getItem key with
    | none => rfl
    | some sv =>
      cases sv with
      | emptyStr => rfl
      | corrupt => rfl
      | entry e => dsimp only; split <;> rfl
  · simp [hen]

theorem BrowserCache.get_disabled {P : Type} (c : BrowserCache P) (key : String) (now : Nat)
    (h : c.enabled = false) : c.get key now = (none, c) := by
  simp [BrowserCache.get, h]

theorem BrowserCache.set_disabled {P : Type} (c : BrowserCache P) (key : String)
    (data : Option P) (ttlArg : Option Nat) (now : Nat) (h : c.enabled = false) :
    c.set key data ttlArg now = c := by
  simp [BrowserCache.set, h]

theorem BrowserCache.storage_set {P : Type} (c : BrowserCache P) (key : String)
    (data : Option P) (ttlArg : Option Nat) (now : Nat) (h : c.enabled = true) :
    (c.set key data ttlArg now).storage =
      c.storage.setItem key
        (.entry { data := data, timestamp := now, ttl := some (ttlArg.getD c.ttl) }) := by
  simp [BrowserCache.set, h]

/-! Claim C1: `BrowserCache.get` semantics. -/

/-- C1 counterexample: the claim states that whenever the stored string
fails to deserialize, `get` deletes the key. The empty string fails
`JSON.parse`, yet the source's truthiness guard `if (!item) return null`
answers null while leaving the key in storage, so the deletion part of
the claim is false for an empty stored string. -/
theorem c1_empty_string_survives_get :
    ((({ storage := [("k", StoredVal.emptyStr)], ttl := DEFAULT_TTL, enabled := true } :
        BrowserCache Nat).get "k" 5).1 = none) ∧
    ((({ storage := [("k", StoredVal.emptyStr)], ttl := DEFAULT_TTL, enabled := true } :
        BrowserCache Nat).get "k" 5).2).storage.getItem "k" = some StoredVal.emptyStr :=
  ⟨rfl, rfl⟩

/-- C1 (amended): for an enabled cache, `get` returns null on an absent
key; returns the stored `data` while `now - timestamp` is within the
effective TTL `ttl ?? default`; past the effective TTL it deletes
exactly that key and returns null; a nonempty stored string that fails
to deserialize is deleted (touching no other key) with null returned;
and an empty stored string is treated like an absent key (null returned,
key left in place). -/
theorem c1_get_semantics {P : Type} (c : BrowserCache P) (key : String) (now : Nat)
    (hen : c.enabled = true) :
    (c.storage.getItem key = none → c.get key now = (none, c)) ∧
    (∀ e : CacheEntry P, c.storage.getItem key = some (.entry e) →
      (now - e.timestamp ≤ e.ttl.getD c.ttl → c.get key now = (e.data, c)) ∧
      (e.ttl.getD c.ttl < now - e.timestamp →
        (c.get key now).1 = none ∧
        ((c.get key now).2).storage.getItem key = none ∧
        ∀ k2, k2 ≠ key → ((c.get key now).2).storage.getItem k2 = c.storage.getItem k2)) ∧
    (c.storage.getItem key = some .corrupt →
      (c.get key now).1 = none ∧
      ((c.get key now).2).storage.getItem key = none ∧
      ∀ k2, k2 ≠ key → ((c.get key now).2).storage.getItem k2 = c.storage.getItem k2) ∧
    (c.storage.getItem key = some .emptyStr → c.get key now = (none, c)) := by
  refine ⟨?_, ?_, ?_, ?_⟩
  · intro h
    simp [BrowserCache.get, hen, h]
  · intro e h
    constructor
    · intro hfresh
      simp [BrowserCache.get, hen, h, Nat.not_lt.mpr hfresh]
    · intro hstale
      refine ⟨?_, ?_, ?_⟩
      · simp [BrowserCache.get, hen, h, hstale]
      · simp [BrowserCache.get, hen, h, hstale, Storage.getItem_removeItem_self]
      · intro k2 hk2
        simp [BrowserCache.get, hen, h, hstale,
          Storage.getItem_removeItem_other c.storage key k2 hk2]
  · intro h
    refine ⟨?_, ?_, ?_⟩
    · simp [BrowserCache.get, hen, h]
    · simp [BrowserCache.get, hen, h, Storage.getItem_removeItem_self]
    · intro k2 hk2
      simp [BrowserCache.get, hen, h,
        Storage.getItem_removeItem_other c.storage key k2 hk2]
  · intro h
    simp [BrowserCache.get, hen, h]

/-- Concrete cache used to witness the amended C1 theorem: one fresh
entry, one expired entry, one corrupt entry. -/
def c1Cache : BrowserCache Nat :=
  { storage := [("fresh", StoredVal.entry { data := some 7, timestamp := 0, ttl := some 100 }),
      ("stale", StoredVal.entry { data := some 8, timestamp := 0, ttl := some 10 }),
      ("bad", StoredVal.corrupt)],
    ttl := DEFAULT_TTL, enabled := true }

/-- Witness for the amended C1 theorem at `c1Cache` and time 50. -/
theorem c1_get_semantics_witness :
    (c1Cache.get "fresh" 50 = (some 7, c1Cache)) ∧
    ((c1Cache.get "stale" 50).1 = none) ∧
    ((c1Cache.get "stale" 50).2.storage.getItem "stale" = none) ∧
    ((c1Cache.get "bad" 50).2.storage.getItem "bad" = none) ∧
    (c1Cache.get "absent" 50 = (none, c1Cache)) := by
  refine ⟨?_, ?_, ?_, ?_, ?_⟩
  · exact ((c1_get_semantics c1Cache "fresh" 50 rfl).2.1
      { data := some 7, timestamp := 0, ttl := some 100 } rfl).1 (by decide)
  · exact (((c1_get_semantics c1Cache "stale" 50 rfl).2.1
      { data := some 8, timestamp := 0, ttl := some 10 } rfl).2 (by decide)).1
  · exact (((c1_get_semantics c1Cache "stale" 50 rfl).2.1
      { data := some 8, timestamp := 0, ttl := some 10 } rfl).2 (by decide)).2.1
  · exact ((c1_get_semantics c1Cache "bad" 50 rfl).2.2.1 rfl).2.1
  · exact (c1_get_semantics c1Cache "absent" 50 rfl).1 rfl

/-! Claim C8: disabled-cache mode. -/

/-- C8: with caching disabled, `get` answers null for every key without
touching storage, `set` is a no-op, and two sequential identical `many`
queries each perform their own network request while the cache state
(hence the underlying storage) never changes. -/
theorem c8_disabled_cache (c : BrowserCache CQPayload) (hdis : c.enabled = false) :
    (∀ key now, c.get key now = (none, c)) ∧
    (∀ key data ttlArg now, c.set key data ttlArg now = c) ∧
    (∀ projectId slug locale items now1 now2, slug ≠ "" →
      (CollectionQuery.many projectId slug locale {} (.ok items) now1 c).requests.length = 1 ∧
      (CollectionQuery.many projectId slug locale {} (.ok items) now1 c).cache = c ∧
      (CollectionQuery.many projectId slug locale {} (.ok items) now2
          (CollectionQuery.many projectId slug locale {} (.ok items) now1 c).cache).requests.length
        = 1 ∧
      (CollectionQuery.many projectId slug locale {} (.ok items) now2
          (CollectionQuery.many projectId slug locale {} (.ok items) now1 c).cache).cache = c) := by
  have hget : ∀ key now, c.get key now = (none, c) :=
    fun key now => BrowserCache.get_disabled c key now hdis
  have hset : ∀ key data ttlArg now, c.set key data ttlArg now = c :=
    fun key data ttlArg now => BrowserCache.set_disabled c key data ttlArg now hdis
  refine ⟨hget, hset, ?_⟩
  intro projectId slug locale items now1 now2 hslug
  have hone : ∀ now3, CollectionQuery.many projectId slug locale {} (.ok items) now3 c =
      { result := .ok (.arr items),
        cache := c.set (joinColon [vmsKeyHead, projectId, locale, slug, "many"])
          (some (.list items)) none now3,
        requests := [listEndpoint projectId slug locale] } := by
    intro now3
    unfold CollectionQuery.many
    simp [BrowserCache.generateKey, generateKeyParts, manyKeyComponents, hslug, hget,
      itemSegs, paramSegs, Except.map]
  rw [hone now1, hset]
  rw [hone now2, hset]
  exact ⟨rfl, rfl, rfl, rfl⟩

/-- Concrete disabled cache used to witness C8: it even holds a stored
entry under the query key, which `get` must ignore. -/
def c8Cache : BrowserCache CQPayload :=
  { storage := [("vms:p:en-US:blog:many",
      StoredVal.entry { data := some (CQPayload.list []), timestamp := 0, ttl := some 999999 })],
    ttl := DEFAULT_TTL, enabled := false }

/-- Witness for C8 at `c8Cache`. -/
theorem c8_disabled_cache_witness :
    (c8Cache.get "vms:p:en-US:blog:many" 1 = (none, c8Cache)) ∧
    ((CollectionQuery.many "p" "blog" "en-US" {} (.ok []) 1 c8Cache).requests.length = 1) ∧
    ((CollectionQuery.many "p" "blog" "en-US" {} (.ok []) 1 c8Cache).cache = c8Cache) := by
  refine ⟨?_, ?_, ?_⟩
  · exact (c8_disabled_cache c8Cache rfl).1 "vms:p:en-US:blog:many" 1
  · exact ((c8_disabled_cache c8Cache rfl).2.2 "p" "blog" "en-US" [] 1 1 (by decide)).1
  · exact ((c8_disabled_cache c8Cache rfl).2.2 "p" "blog" "en-US" [] 1 1 (by decide)).2.1

/-! Claim C9: `clearLocaleCache` removes exactly the locale-scoped keys. -/

/-- C9: for an enabled cache, `clearLocaleCache(projectId, locale)`
leaves a storage in which every key starting with the prefix
`vms:{projectId}:{locale}:` is absent and every other key is bound
exactly as before. -/
theorem c9_clearLocaleCache_exact {P : Type} (c : BrowserCache P) (projectId locale : String)
    (hen : c.enabled = true) (k : String) :
    (c.clearLocaleCache projectId locale).storage.getItem k =
      if strStartsWith k (vmsKeyHead ++ ":" ++ projectId ++ ":" ++ locale ++ ":") then none
      else c.storage.getItem k := by
  unfold BrowserCache.clearLocaleCache
  simp only [hen, Bool.not_true, Bool.false_eq_true, if_false]
  rw [Storage.getItem_foldl_removeItem]
  by_cases hpfx : strStartsWith k (vmsKeyHead ++ ":" ++ projectId ++ ":" ++ locale ++ ":") = true
  · simp only [hpfx, if_true]
    by_cases hmem : k ∈ c.storage.keys
    · simp [List.mem_filter, hmem, hpfx]
    · have hk : k ∉ c.storage.keys.filter
          (fun k2 => strStartsWith k2 (vmsKeyHead ++ ":" ++ projectId ++ ":" ++ locale ++ ":")) :=
        fun hmem2 => hmem (List.mem_of_mem_filter hmem2)
      simp only [hk, if_false]
      exact Storage.getItem_none_of_not_mem_keys c.storage k hmem
  · have hk : k ∉ c.storage.keys.filter
        (fun k2 => strStartsWith k2 (vmsKeyHead ++ ":" ++ projectId ++ ":" ++ locale ++ ":")) := by
      intro hmem2
      exact hpfx (List.mem_filter.mp hmem2).2
    simp [hk, hpfx]

/-- Concrete cache used to witness C9: entries under two locales of the
same project plus an unrelated key. -/
def c9Cache : BrowserCache Nat :=
  { storage := [("vms:p:en-US:blog:first", StoredVal.corrupt),
      ("vms:p:fr-FR:blog:first", StoredVal.emptyStr),
      ("other:key", StoredVal.corrupt)],
    ttl := DEFAULT_TTL, enabled := true }

/-- Witness for C9 at `c9Cache`: the en-US entry is removed while the
fr-FR entry for the same logical item and the unrelated key survive. -/
theorem c9_clearLocaleCache_exact_witness :
    ((c9Cache.clearLocaleCache "p" "en-US").storage.getItem "vms:p:en-US:blog:first" = none) ∧
    ((c9Cache.clearLocaleCache "p" "en-US").storage.getItem "vms:p:fr-FR:blog:first" =
      some StoredVal.emptyStr) ∧
    ((c9Cache.clearLocaleCache "p" "en-US").storage.getItem "other:key" =
      some StoredVal.corrupt) := by
  refine ⟨?_, ?_, ?_⟩
  · exact (c9_clearLocaleCache_exact c9Cache "p" "en-US" rfl "vms:p:en-US:blog:first").trans
      (by rfl)
  · exact (c9_clearLocaleCache_exact c9Cache "p" "en-US" rfl "vms:p:fr-FR:blog:first").trans
      (by rfl)
  · exact (c9_clearLocaleCache_exact c9Cache "p" "en-US" rfl "other:key").trans (by rfl)

/-! Claim C10: a cached null payload is indistinguishable from a miss. -/

/-- C10: after `set key null` on an enabled cache, `get` answers null at
every later time (in particular before the TTL has elapsed) and `has`
answers false, so a cached negative result cannot be told apart from an
absent key through the cache interface. -/
theorem c10_cached_null_like_miss {P : Type} (c : BrowserCache P) (key : String)
    (ttlArg : Option Nat) (now now2 : Nat) (hen : c.enabled = true) :
    ((c.set key none ttlArg now).get key now2).1 = none ∧
    ((c.set key none ttlArg now).has key now2).1 = false := by
  have hsen : (c.set key none ttlArg now).enabled = true := by
    simp [BrowserCache.set, hen]
  have hit : (c.set key none ttlArg now).storage.getItem key =
      some (.entry { data := none, timestamp := now, ttl := some (ttlArg.getD c.ttl) }) := by
    rw [BrowserCache.storage_set c key none ttlArg now hen]
    exact Storage.getItem_setItem_self c.storage key _
  have hget : ((c.set key none ttlArg now).get key now2).1 = none := by
    simp only [BrowserCache.get, hsen, Bool.not_true, Bool.false_eq_true, if_false, hit]
    split <;> rfl
  refine ⟨hget, ?_⟩
  simp [BrowserCache.has, hget]

/-- Witness for C10 on a concrete empty enabled cache, reading back one
millisecond after a null store with the short TTL. -/
theorem c10_cached_null_like_miss_witness :
    ((({ storage := [], ttl := DEFAULT_TTL, enabled := true } : BrowserCache Nat).set
        "vms:p:en-US:blog:item:x" none (some 60000) 0).get "vms:p:en-US:blog:item:x" 1).1 =
      none ∧
    ((({ storage := [], ttl := DEFAULT_TTL, enabled := true } : BrowserCache Nat).set
        "vms:p:en-US:blog:item:x" none (some 60000) 0).has "vms:p:en-US:blog:item:x" 1).1 =
      false :=
  c10_cached_null_like_miss
    { storage := [], ttl := DEFAULT_TTL, enabled := true }
    "vms:p:en-US:blog:item:x" (some 60000) 0 1 rfl

/-! Claim C4: the cached null lookup is meant to prevent a repeat
network request, but does not. -/

/-- Empty enabled cache used to evaluate the C4 failing input. -/
def c4Cache : BrowserCache CQPayload :=
  { storage := [], ttl := DEFAULT_TTL, enabled := true }

/-- The 404 transport answer used for the C4 failing input. -/
def c4NotFound : Except VmsError Item :=
  .error { message := "Not found", status := some 404 }

/-- C4 failing input, evaluated: the first `item` call on a missing id
fetches once and stores the null entry with the 60000 ms TTL, yet the
identical call issued 1000 ms later — well inside that TTL — fetches
again, because `get` answers the stored null and the caller's
`cached !== null` check reads that as a miss. The code's own comment
says the null entry exists to avoid repeated requests. -/
theorem c4_null_cache_does_not_prevent_refetch :
    ((CollectionQuery.item "p" "blog" "en-US" "missing" c4NotFound 0 c4Cache).requests.length
      = 1) ∧
    ((CollectionQuery.item "p" "blog" "en-US" "missing" c4NotFound 0 c4Cache).cache.storage.getItem
        "vms:p:en-US:blog:item:missing" =
      some (StoredVal.entry { data := none, timestamp := 0, ttl := some 60000 })) ∧
    ((CollectionQuery.item "p" "blog" "en-US" "missing" c4NotFound 1000
        (CollectionQuery.item "p" "blog" "en-US" "missing" c4NotFound 0 c4Cache).cache).requests.length
      = 1) :=
  ⟨rfl, rfl, rfl⟩

/-! Claim C3: `item` swallows exactly the 404 transport error. -/

/-- C3: on a cache miss, an `item` call whose transport fails with
status 404 returns the empty (null) result instead of throwing, and
stores `null` under the item's cache key with the short 60000 ms TTL;
a transport error with any other status is re-thrown unchanged. -/
theorem c3_item_404_swallowed (projectId slug locale itemId : String)
    (c : BrowserCache CQPayload) (now : Nat) (key : String) (msg : String)
    (hen : c.enabled = true)
    (hkey : BrowserCache.generateKey (itemKeyComponents projectId slug locale itemId) = .ok key)
    (hmiss : (c.get key now).1 = none) :
    ((CollectionQuery.item projectId slug locale itemId
        (.error { message := msg, status := some 404 }) now c).result = .ok .nullr) ∧
    (CollectionResult.isEmpty (CollectionQueryResult.nullr (T := Item)) = true) ∧
    ((CollectionQuery.item projectId slug locale itemId
        (.error { message := msg, status := some 404 }) now c).cache.storage.getItem key =
      some (StoredVal.entry { data := none, timestamp := now, ttl := some 60000 })) ∧
    (∀ e : VmsError, e.status ≠ some 404 →
      (CollectionQuery.item projectId slug locale itemId (.error e) now c).result = .error e) := by
  have hen2 : ((c.get key now).2).enabled = true := by
    rw [BrowserCache.enabled_get]; exact hen
  refine ⟨?_, rfl, ?_, ?_⟩
  · unfold CollectionQuery.item
    rw [hkey]
    simp [hmiss]
  · unfold CollectionQuery.item
    rw [hkey]
    simp only [hmiss, if_true]
    rw [BrowserCache.storage_set _ key none (some 60000) now hen2]
    exact Storage.getItem_setItem_self _ key _
  · intro e he
    unfold CollectionQuery.item
    rw [hkey]
    simp [hmiss, he]

/-- Witness for C3 at a concrete empty enabled cache and concrete ids,
with a 404 and a 500 transport answer. -/
theorem c3_item_404_swallowed_witness :
    ((CollectionQuery.item "p" "blog" "en-US" "x1"
        (.error { message := "gone", status := some 404 }) 0
        { storage := [], ttl := DEFAULT_TTL, enabled := true }).result = .ok .nullr) ∧
    ((CollectionQuery.item "p" "blog" "en-US" "x1"
        (.error { message := "gone", status := some 404 }) 0
        { storage := [], ttl := DEFAULT_TTL, enabled := true }).cache.storage.getItem
        "vms:p:en-US:blog:item:x1" =
      some (StoredVal.entry { data := none, timestamp := 0, ttl := some 60000 })) ∧
    ((CollectionQuery.item "p" "blog" "en-US" "x1"
        (.error { message := "boom", status := some 500 }) 0
        { storage := [], ttl := DEFAULT_TTL, enabled := true }).result =
      .error { message := "boom", status := some 500 }) := by
  refine ⟨?_, ?_, ?_⟩
  · exact (c3_item_404_swallowed "p" "blog" "en-US" "x1"
      { storage := [], ttl := DEFAULT_TTL, enabled := true } 0
      "vms:p:en-US:blog:item:x1" "gone" rfl rfl rfl).1
  · exact (c3_item_404_swallowed "p" "blog" "en-US" "x1"
      { storage := [], ttl := DEFAULT_TTL, enabled := true } 0
      "vms:p:en-US:blog:item:x1" "gone" rfl rfl rfl).2.2.1
  · exact (c3_item_404_swallowed "p" "blog" "en-US" "x1"
      { storage := [], ttl := DEFAULT_TTL, enabled := true } 0
      "vms:p:en-US:blog:item:x1" "gone" rfl rfl rfl).2.2.2
      { message := "boom", status := some 500 } (by decide)

/-! Claim C5: `many` fetches the whole collection and truncates
client-side; `all` is `many` with no limit. -/

/-- C5: on a cache miss with a positive limit, `many` issues exactly
one request, to the listing endpoint — which does not depend on the
limit and carries no limit parameter — and returns the first
`min(limit, n)` items of the fetched collection, truncated client-side;
`all` equals `many` with no limit on every input. -/
theorem c5_many_truncates_client_side (projectId slug locale : String) (items : List Item)
    (l : Int) (c : BrowserCache CQPayload) (now : Nat) (key : String)
    (hl : 0 < l)
    (hkey : BrowserCache.generateKey
      (manyKeyComponents projectId slug locale { limit := some l }) = .ok key)
    (hmiss : (c.get key now).1 = none) :
    ((CollectionQuery.many projectId slug locale { limit := some l } (.ok items) now c).result =
      .ok (.arr (items.take l.toNat))) ∧
    ((items.take l.toNat).length = min l.toNat items.length) ∧
    ((CollectionQuery.many projectId slug locale { limit := some l } (.ok items) now c).requests =
      [listEndpoint projectId slug locale]) ∧
    (∀ transport now2 c2, CollectionQuery.all projectId slug locale transport now2 c2 =
      CollectionQuery.many projectId slug locale { limit := none } transport now2 c2) := by
  refine ⟨?_, ?_, ?_, ?_⟩
  · unfold CollectionQuery.many
    rw [hkey]
    simp [hmiss, hl]
  · exact List.length_take l.toNat items
  · unfold CollectionQuery.many
    rw [hkey]
    simp [hmiss]
  · intro transport now2 c2
    rfl

/-- Witness for C5: a three-item collection, limit 2, empty enabled
cache. The cache key is the generated one for the limit-2 query. -/
theorem c5_many_truncates_client_side_witness :
    ((CollectionQuery.many "p" "blog" "en-US" { limit := some 2 }
        (.ok [{ id := "a", data := [], locale := "en-US" },
          { id := "b", data := [], locale := "en-US" },
          { id := "c", data := [], locale := "en-US" }]) 0
        { storage := [], ttl := DEFAULT_TTL, enabled := true }).result =
      .ok (.arr [{ id := "a", data := [], locale := "en-US" },
        { id := "b", data := [], locale := "en-US" }])) ∧
    ((CollectionQuery.many "p" "blog" "en-US" { limit := some 2 }
        (.ok [{ id := "a", data := [], locale := "en-US" },
          { id := "b", data := [], locale := "en-US" },
          { id := "c", data := [], locale := "en-US" }]) 0
        { storage := [], ttl := DEFAULT_TTL, enabled := true }).requests =
      ["/api/public/p/blog?locale=en-US"]) := by
  have h := c5_many_truncates_client_side "p" "blog" "en-US"
    [{ id := "a", data := [], locale := "en-US" },
      { id := "b", data := [], locale := "en-US" },
      { id := "c", data := [], locale := "en-US" }] 2
    { storage := [], ttl := DEFAULT_TTL, enabled := true } 0
    ((BrowserCache.generateKey
      (manyKeyComponents "p" "blog" "en-US" { limit := some 2 })).toOption.getD "")
    (by decide) (by rfl) (by rfl)
  exact ⟨h.1.trans (by rfl), h.2.2.1.trans (by rfl)⟩

/-! Claim C2: cache key determinism and injectivity. -/

theorem lookupParam_perm {ps1 ps2 : List (String × ParamValue)} (h : ps1.Perm ps2) :
    (ps1.map Prod.fst).Nodup → ∀ k, lookupParam ps1 k = lookupParam ps2 k := by
  induction h with
  | nil => intro _ k; rfl
  | cons a t ih =>
    intro nd k
    obtain ⟨k0, v0⟩ := a
    rw [List.map_cons] at nd
    have nd2 := nd.of_cons
    by_cases hk : k = k0
    · simp [lookupParam, hk]
    · simp [lookupParam, hk, ih nd2 k]
  | swap x y l =>
    intro nd k
    obtain ⟨kx, vx⟩ := x
    obtain ⟨ky, vy⟩ := y
    rw [List.map_cons, List.map_cons] at nd
    have hne : ky ≠ kx := by
      have hnotin := (List.nodup_cons.mp nd).1
      intro he
      exact hnotin (by simp [he])
    by_cases h1 : k = ky <;> by_cases h2 : k = kx
    · exact absurd (h1.symm.trans h2) hne
    · simp [lookupParam, h1, h2, hne]
    · simp [lookupParam, h1, h2, Ne.symm hne]
    · simp [lookupParam, h1, h2]
  | trans h1 h2 ih1 ih2 =>
    intro nd k
    have nd2 := (h1.map Prod.fst).nodup nd
    rw [ih1 nd k, ih2 nd2 k]

theorem serializeParams_perm {ps1 ps2 : List (String × ParamValue)} (h : ps1.Perm ps2)
    (nd : (ps1.map Prod.fst).Nodup) : serializeParams ps1 = serializeParams ps2 := by
  unfold serializeParams
  have hperm : (List.insertionSort (fun a b => a ≤ b) (ps1.map Prod.fst)).Perm
      (List.insertionSort (fun a b => a ≤ b) (ps2.map Prod.fst)) :=
    (List.perm_insertionSort _ _).trans
      ((h.map Prod.fst).trans (List.perm_insertionSort _ _).symm)
  have hks : List.insertionSort (fun a b => a ≤ b) (ps1.map Prod.fst) =
      List.insertionSort (fun a b => a ≤ b) (ps2.map Prod.fst) :=
    List.eq_of_perm_of_sorted hperm
      (List.sorted_insertionSort (fun a b => a ≤ b) (ps1.map Prod.fst))
      (List.sorted_insertionSort (fun a b => a ≤ b) (ps2.map Prod.fst))
  have hfun : (fun k => (lookupParam ps1 k).map
        (fun v => "\"" ++ jsonEscape k ++ "\":" ++ renderParamValue v)) =
      (fun k => (lookupParam ps2 k).map
        (fun v => "\"" ++ jsonEscape k ++ "\":" ++ renderParamValue v)) :=
    funext (fun k => by rw [lookupParam_perm h nd k])
  rw [hks, hfun]

/-- The key segments after `vms:{projectId}:{locale}` as a function of
the non-locale components; used to factor the generated key. -/
def keyTail (comp : CacheKeyComponents) : List String :=
  if comp.queryType = "asset-url" ∨ comp.queryType = "asset-download" then
    ["asset", comp.queryType, comp.assetId.getD ""] ++ paramSegs comp.params
  else
    [comp.collectionSlug.getD "", comp.queryType] ++ itemSegs comp.itemId ++ paramSegs comp.params

theorem generateKey_ok_key (comp : CacheKeyComponents) (k : String)
    (h : BrowserCache.generateKey comp = .ok k) :
    k = joinColon (vmsKeyHead :: comp.projectId :: (comp.locale.getD "en-US") :: keyTail comp) := by
  unfold BrowserCache.generateKey generateKeyParts at h
  unfold keyTail
  by_cases hq : comp.queryType = "asset-url" ∨ comp.queryType = "asset-download"
  · rw [if_pos hq] at h
    rw [if_pos hq]
    split at h
    · rename_i aid heq
      split at h
      · exact absurd h (by simp [Except.map])
      · simp only [Except.map] at h
        rw [heq]
        exact (Except.ok.inj h).symm
    · exact absurd h (by simp [Except.map])
  · rw [if_neg hq] at h
    rw [if_neg hq]
    split at h
    · rename_i slug heq
      split at h
      · exact absurd h (by simp [Except.map])
      · simp only [Except.map] at h
        rw [heq]
        exact (Except.ok.inj h).symm
    · exact absurd h (by simp [Except.map])

theorem generateKey_ok_collection (comp : CacheKeyComponents) (k : String)
    (hq : ¬(comp.queryType = "asset-url" ∨ comp.queryType = "asset-download"))
    (h : BrowserCache.generateKey comp = .ok k) :
    ∃ slug, comp.collectionSlug = some slug ∧ slug ≠ "" ∧
      k = joinColon ([vmsKeyHead, comp.projectId, comp.locale.getD "en-US", slug, comp.queryType]
        ++ itemSegs comp.itemId ++ paramSegs comp.params) := by
  unfold BrowserCache.generateKey generateKeyParts at h
  rw [if_neg hq] at h
  split at h
  · rename_i slug heq
    split at h
    · exact absurd h (by simp [Except.map])
    · rename_i hne
      simp only [Except.map] at h
      exact ⟨slug, heq, hne, (Except.ok.inj h).symm⟩
  · exact absurd h (by simp [Except.map])

/-- Key components whose parameter object is `{Aa: 1}`. -/
def c2CompA : CacheKeyComponents :=
  { projectId := "p", collectionSlug := some "c", queryType := "many",
    params := some [("Aa", ParamValue.num 1)], locale := some "en" }

/-- Key components whose parameter object is `{BB: 1}`. -/
def c2CompB : CacheKeyComponents :=
  { projectId := "p", collectionSlug := some "c", queryType := "many",
    params := some [("BB", ParamValue.num 1)], locale := some "en" }

/-- C2 counterexample: the parameter hash is a 32-bit string hash, so
two different parameter sets can collide. The parameter objects
`{Aa: 1}` and `{BB: 1}` serialize to strings with equal hashes (the
classic two-character collision of the polynomial hash), so the two
component records differ only in their parameter set yet generate the
same key, refuting the injectivity part of the claim. -/
theorem c2_param_hash_collision :
    BrowserCache.generateKey c2CompA = BrowserCache.generateKey c2CompB ∧
    c2CompA.params ≠ c2CompB.params ∧
    c2CompA.projectId = c2CompB.projectId ∧
    c2CompA.collectionSlug = c2CompB.collectionSlug ∧
    c2CompA.queryType = c2CompB.queryType ∧
    c2CompA.itemId = c2CompB.itemId ∧
    c2CompA.locale = c2CompB.locale :=
  ⟨rfl, by decide, rfl, rfl, rfl, rfl, rfl⟩

/-- C2 (amended): `generateKey` is a pure function (identical components
always give the identical string); parameter objects that are
permutations of each other with no duplicate key produce the same key;
and within successfully generated keys, varying only the locale, only
the collection slug (for a non-asset query type), only the query kind
(among first/many/all/item), or only a nonempty item id (for a
non-asset query type) always changes the key. Varying only the
parameter set need not change the key (32-bit hash collisions; an empty
parameter object also collides with an absent one). -/
theorem c2_generateKey_determinism :
    (∀ comp : CacheKeyComponents, ∀ ps1 ps2 : List (String × ParamValue), ps1.Perm ps2 →
      (ps1.map Prod.fst).Nodup →
      BrowserCache.generateKey { comp with params := some ps1 } =
        BrowserCache.generateKey { comp with params := some ps2 }) ∧
    (∀ comp : CacheKeyComponents, ∀ l1 l2 k1 k2 : String,
      BrowserCache.generateKey { comp with locale := some l1 } = .ok k1 →
      BrowserCache.generateKey { comp with locale := some l2 } = .ok k2 →
      k1 = k2 → l1 = l2) ∧
    (∀ comp : CacheKeyComponents, ∀ s1 s2 k1 k2 : String,
      ¬(comp.queryType = "asset-url" ∨ comp.queryType = "asset-download") →
      BrowserCache.generateKey { comp with collectionSlug := some s1 } = .ok k1 →
      BrowserCache.generateKey { comp with collectionSlug := some s2 } = .ok k2 →
      k1 = k2 → s1 = s2) ∧
    (∀ comp : CacheKeyComponents, ∀ q1 q2 k1 k2 : String,
      (q1 = "first" ∨ q1 = "many" ∨ q1 = "all" ∨ q1 = "item") →
      (q2 = "first" ∨ q2 = "many" ∨ q2 = "all" ∨ q2 = "item") →
      BrowserCache.generateKey { comp with queryType := q1 } = .ok k1 →
      BrowserCache.generateKey { comp with queryType := q2 } = .ok k2 →
      k1 = k2 → q1 = q2) ∧
    (∀ comp : CacheKeyComponents, ∀ i1 i2 k1 k2 : String,
      ¬(comp.queryType = "asset-url" ∨ comp.queryType = "asset-download") →
      i1 ≠ "" → i2 ≠ "" →
      BrowserCache.generateKey { comp with itemId := some i1 } = .ok k1 →
      BrowserCache.generateKey { comp with itemId := some i2 } = .ok k2 →
      k1 = k2 → i1 = i2) := by
  refine ⟨?_, ?_, ?_, ?_, ?_⟩
  · intro comp ps1 ps2 hperm nd
    have hps : paramSegs (some ps1) = paramSegs (some ps2) := by
      unfold paramSegs
      have hlen := hperm.length_eq
      have hemp : ps1.isEmpty = ps2.isEmpty := by
        cases ps1 <;> cases ps2 <;> simp_all
      by_cases he : ps2.isEmpty
      · simp [hemp, he]
      · simp [hemp, he, serializeParams_perm hperm nd]
    unfold BrowserCache.generateKey
    congr 1
    unfold generateKeyParts
    dsimp only
    rw [hps]
  · intro comp l1 l2 k1 k2 h1 h2 heq
    have e1 := generateKey_ok_key { comp with locale := some l1 } k1 h1
    have e2 := generateKey_ok_key { comp with locale := some l2 } k2 h2
    have hkt : keyTail { comp with locale := some l1 } =
        keyTail { comp with locale := some l2 } := rfl
    rw [e1, e2, hkt] at heq
    exact joinColon_mid_inj [vmsKeyHead, comp.projectId] l1 l2
      (keyTail { comp with locale := some l2 }) heq
  · intro comp s1 s2 k1 k2 hq h1 h2 heq
    obtain ⟨sl1, hsl1, _, e1⟩ :=
      generateKey_ok_collection { comp with collectionSlug := some s1 } k1 hq h1
    obtain ⟨sl2, hsl2, _, e2⟩ :=
      generateKey_ok_collection { comp with collectionSlug := some s2 } k2 hq h2
    have hs1 : s1 = sl1 := Option.some.inj hsl1
    have hs2 : s2 = sl2 := Option.some.inj hsl2
    rw [← hs1] at e1
    rw [← hs2] at e2
    rw [e1, e2] at heq
    exact joinColon_mid_inj [vmsKeyHead, comp.projectId, comp.locale.getD "en-US"] s1 s2
      (comp.queryType :: (itemSegs comp.itemId ++ paramSegs comp.params)) heq
  · intro comp q1 q2 k1 k2 hq1 hq2 h1 h2 heq
    have hna1 : ¬(q1 = "asset-url" ∨ q1 = "asset-download") := by
      rcases hq1 with h | h | h | h <;> rw [h] <;> decide
    have hna2 : ¬(q2 = "asset-url" ∨ q2 = "asset-download") := by
      rcases hq2 with h | h | h | h <;> rw [h] <;> decide
    obtain ⟨sl1, hsl1, _, e1⟩ :=
      generateKey_ok_collection { comp with queryType := q1 } k1 hna1 h1
    obtain ⟨sl2, hsl2, _, e2⟩ :=
      generateKey_ok_collection { comp with queryType := q2 } k2 hna2 h2
    have hsl : sl1 = sl2 := Option.some.inj (hsl1.symm.trans hsl2)
    rw [hsl] at e1
    rw [e1, e2] at heq
    exact joinColon_mid_inj [vmsKeyHead, comp.projectId, comp.locale.getD "en-US", sl2] q1 q2
      (itemSegs comp.itemId ++ paramSegs comp.params) heq
  · intro comp i1 i2 k1 k2 hq hi1 hi2 h1 h2 heq
    obtain ⟨sl1, hsl1, _, e1⟩ :=
      generateKey_ok_collection { comp with itemId := some i1 } k1 hq h1
    obtain ⟨sl2, hsl2, _, e2⟩ :=
      generateKey_ok_collection { comp with itemId := some i2 } k2 hq h2
    have hsl : sl1 = sl2 := Option.some.inj (hsl1.symm.trans hsl2)
    rw [hsl] at e1
    have hseg1 : itemSegs (some i1) = [i1] := by simp [itemSegs, hi1]
    have hseg2 : itemSegs (some i2) = [i2] := by simp [itemSegs, hi2]
    rw [e1, e2] at heq
    simp only [hseg1, hseg2] at heq
    exact joinColon_mid_inj [vmsKeyHead, comp.projectId, comp.locale.getD "en-US", sl2,
      comp.queryType] i1 i2 (paramSegs comp.params) heq

/-- Key components with no parameter object, used by the C2 witness. -/
def c2CompBase : CacheKeyComponents :=
  { projectId := "p", collectionSlug := some "blog", queryType := "many",
    locale := some "en-US" }

/-- Witness for the amended C2 theorem: the parameter objects
`{a: 1, b: 2}` and `{b: 2, a: 1}` differ only in insertion order and
generate the same key. -/
theorem c2_generateKey_determinism_witness :
    BrowserCache.generateKey
        { c2CompBase with params := some [("b", ParamValue.num 2), ("a", ParamValue.num 1)] } =
      BrowserCache.generateKey
        { c2CompBase with params := some [("a", ParamValue.num 1), ("b", ParamValue.num 2)] } :=
  c2_generateKey_determinism.1 c2CompBase
    [("b", ParamValue.num 2), ("a", ParamValue.num 1)]
    [("a", ParamValue.num 1), ("b", ParamValue.num 2)]
    (List.Perm.swap ("a", ParamValue.num 1) ("b", ParamValue.num 2) [])
    (by decide)

/-! Claim C6: `generateAssetUrl` shape, validation and
locale-independence. -/

/-- Query parameter pairs of an asset URL, written from the spec's
wording: `variant`, `width`, `height` appended in that fixed order when
present. -/
def assetUrlSpecParams (o : AssetUrlOptions) : List (String × String) :=
  (match o.variant with
    | some v => if v = "" then [] else [("variant", v)]
    | none => []) ++
  (match o.width with
    | some w => [("width", toString w)]
    | none => []) ++
  (match o.height with
    | some h2 => [("height", toString h2)]
    | none => [])

/-- The asset URL described by the spec:
`{baseUrl}/api/assets/{projectId}/{assetId}` with the serialized query
string appended when nonempty. -/
def assetUrlSpec (m : AssetManager) (assetId : String) (o : AssetUrlOptions) : String :=
  let base := m.baseUrl ++ "/api/assets/" ++ m.projectId ++ "/" ++ assetId
  let qs := searchParamsToString (assetUrlSpecParams o)
  if qs = "" then base else base ++ "?" ++ qs

theorem generateAssetUrl_ok (m : AssetManager) (assetId : String) (o : AssetUrlOptions)
    (hid : isValidAssetId assetId = true)
    (hw : ∀ w, o.width = some w → 0 < w) (hh : ∀ h2, o.height = some h2 → 0 < h2) :
    m.generateAssetUrl assetId o = .ok (assetUrlSpec m assetId o) := by
  have hne : ¬(assetId = "") := by
    intro he
    rw [he] at hid
    exact absurd hid (by decide)
  have hparams : buildAssetParams o = .ok (assetUrlSpecParams o) := by
    unfold buildAssetParams assetUrlSpecParams
    cases hwo : o.width with
    | some w =>
      have := hw w hwo
      cases hho : o.height with
      | some h2 =>
        have := hh h2 hho
        simp [Int.not_le.mpr (hw w hwo), Int.not_le.mpr (hh h2 hho), Bind.bind, Except.bind]
      | none => simp [Int.not_le.mpr (hw w hwo), Bind.bind, Except.bind]
    | none =>
      cases hho : o.height with
      | some h2 => simp [Int.not_le.mpr (hh h2 hho), Bind.bind, Except.bind]
      | none => simp [Bind.bind, Except.bind]
  unfold AssetManager.generateAssetUrl assetUrlSpec
  rw [if_neg hne, if_neg (by simp [hid])]
  rw [hparams]
  simp only [Bind.bind, Except.bind]
  split <;> rfl

/-- C6: for a pattern-valid asset id and strictly positive dimensions,
`generateAssetUrl` returns exactly the spec URL (base path plus
`variant`, `width`, `height` in that fixed order); the result never
depends on the manager's locale; an empty or pattern-violating id and a
non-positive width or height each raise the corresponding validation
error. -/
theorem c6_generateAssetUrl (m : AssetManager) (assetId : String) (o : AssetUrlOptions)
    (loc2 : String) :
    (isValidAssetId assetId = true → (∀ w, o.width = some w → 0 < w) →
      (∀ h2, o.height = some h2 → 0 < h2) →
      m.generateAssetUrl assetId o = .ok (assetUrlSpec m assetId o)) ∧
    (({ m with locale := loc2 } : AssetManager).generateAssetUrl assetId o =
      m.generateAssetUrl assetId o) ∧
    (assetId = "" →
      m.generateAssetUrl assetId o = .error "VMS SDK: Asset ID is required") ∧
    (assetId ≠ "" → isValidAssetId assetId = false →
      m.generateAssetUrl assetId o =
        .error "VMS SDK: Invalid asset ID format. Must contain only letters, numbers, underscores, and hyphens.") ∧
    (∀ w, o.width = some w → w ≤ 0 → isValidAssetId assetId = true →
      m.generateAssetUrl assetId o = .error "VMS SDK: Asset width must be a positive number") ∧
    (∀ h2, o.height = some h2 → h2 ≤ 0 → isValidAssetId assetId = true →
      (∀ w, o.width = some w → 0 < w) →
      m.generateAssetUrl assetId o = .error "VMS SDK: Asset height must be a positive number") := by
  refine ⟨?_, ?_, ?_, ?_, ?_, ?_⟩
  · exact generateAssetUrl_ok m assetId o
  · rfl
  · intro he
    simp [AssetManager.generateAssetUrl, he]
  · intro hne hbad
    simp [AssetManager.generateAssetUrl, hne, hbad]
  · intro w hwo hle hid
    have hne : ¬(assetId = "") := by
      intro he
      rw [he] at hid
      exact absurd hid (by decide)
    have hbp : buildAssetParams o = .error "VMS SDK: Asset width must be a positive number" := by
      unfold buildAssetParams
      simp [hwo, hle, Bind.bind, Except.bind]
    unfold AssetManager.generateAssetUrl
    rw [if_neg hne, if_neg (by simp [hid])]
    simp [hbp, Bind.bind, Except.bind]
  · intro h2 hho hle hid hw
    have hne : ¬(assetId = "") := by
      intro he
      rw [he] at hid
      exact absurd hid (by decide)
    have hbp : buildAssetParams o = .error "VMS SDK: Asset height must be a positive number" := by
      unfold buildAssetParams
      cases hwo : o.width with
      | some w => simp [hho, hle, Int.not_le.mpr (hw w hwo), Bind.bind, Except.bind]
      | none => simp [hho, hle, Bind.bind, Except.bind]
    unfold AssetManager.generateAssetUrl
    rw [if_neg hne, if_neg (by simp [hid])]
    simp [hbp, Bind.bind, Except.bind]

/-- Witness for C6 at the end-to-end scenario from the spec:
`asset_url("abc123", {width:300, height:200})` on two managers that
differ only in locale. -/
theorem c6_generateAssetUrl_witness :
    (AssetManager.generateAssetUrl
        { baseUrl := "https://api.vibe-cms.com", projectId := "proj1", locale := "en-US" }
        "abc123" { width := some 300, height := some 200 } =
      .ok "https://api.vibe-cms.com/api/assets/proj1/abc123?width=300&height=200") ∧
    (AssetManager.generateAssetUrl
        { baseUrl := "https://api.vibe-cms.com", projectId := "proj1", locale := "fr-FR" }
        "abc123" { width := some 300, height := some 200 } =
      AssetManager.generateAssetUrl
        { baseUrl := "https://api.vibe-cms.com", projectId := "proj1", locale := "en-US" }
        "abc123" { width := some 300, height := some 200 }) ∧
    (AssetManager.generateAssetUrl
        { baseUrl := "https://api.vibe-cms.com", projectId := "proj1", locale := "en-US" }
        "not valid" { } = .error "VMS SDK: Invalid asset ID format. Must contain only letters, numbers, underscores, and hyphens.") ∧
    (AssetManager.generateAssetUrl
        { baseUrl := "https://api.vibe-cms.com", projectId := "proj1", locale := "en-US" }
        "abc123" { width := some 0 } = .error "VMS SDK: Asset width must be a positive number") := by
  refine ⟨?_, ?_, ?_, ?_⟩
  · exact ((c6_generateAssetUrl
      { baseUrl := "https://api.vibe-cms.com", projectId := "proj1", locale := "en-US" }
      "abc123" { width := some 300, height := some 200 } "fr-FR").1 (by decide)
      (fun w hwe => by simp at hwe; omega)
      (fun h2 hhe => by simp at hhe; omega)).trans (by rfl)
  · exact (c6_generateAssetUrl
      { baseUrl := "https://api.vibe-cms.com", projectId := "proj1", locale := "en-US" }
      "abc123" { width := some 300, height := some 200 } "fr-FR").2.1
  · exact (c6_generateAssetUrl
      { baseUrl := "https://api.vibe-cms.com", projectId := "proj1", locale := "en-US" }
      "not valid" { } "fr-FR").2.2.2.1 (by decide) (by decide)
  · exact (c6_generateAssetUrl
      { baseUrl := "https://api.vibe-cms.com", projectId := "proj1", locale := "en-US" }
      "abc123" { width := some 0 } "fr-FR").2.2.2.2.1 0 rfl (by decide) (by decide)

/-! Claim C7: `CollectionResult` shape transparency. -/

/-- Field lookup as the spec words it: the value stored under the name
in the item's data map, or null when the field is missing. Written
independently of `lookupField` (via `List.find?`) to compare the code
against the spec. -/
def specFieldLookup (it : Item) (name : String) : FieldValue :=
  match it.data.find? (fun kv => kv.1 == name) with
  | some kv => kv.2
  | none => .nullv

theorem lookupField_eq_spec (it : Item) (name : String) :
    it.fieldValue name = specFieldLookup it name := by
  unfold Item.fieldValue specFieldLookup
  induction it.data with
  | nil => rfl
  | cons hd tl ih =>
    obtain ⟨k0, v0⟩ := hd
    by_cases hk : name = k0
    · have hbeq : (k0 == name) = true := by simp [hk]
      simp [lookupField, List.find?, hk, hbeq]
    · have hbeq : (k0 == name) = false := by simp [Ne.symm hk]
      simpa [lookupField, List.find?, hk, hbeq] using ih

/-- Per-item asset URL resolution as the spec words it: null for a
falsy field value, one spec URL per id for an array-valued field, and
the spec URL of the single id otherwise. -/
def specItemUrlOut (m : AssetManager) (o : AssetUrlOptions) (name : String) (it : Item) :
    UrlOut :=
  match it.fieldValue name with
  | .arr ids => .many (ids.map (fun idv => assetUrlSpec m (jsToString idv) o))
  | v => if jsFalsyV v then .nullu else .one (assetUrlSpec m (jsToString v) o)

/-- A field value from which every extracted asset id is pattern-valid:
null (dropped), a falsy or valid string, or an array of valid string
ids. -/
def goodIdVal : FieldValue → Bool
  | .nullv => true
  | .str s => (s = "") || isValidAssetId s
  | .num _ => false
  | .arr ids => ids.all (fun v =>
      match v with
      | .str s => isValidAssetId s
      | _ => false)

/-- Both transform dimensions strictly positive when present. -/
def goodOpts (o : AssetUrlOptions) : Bool :=
  (match o.width with
    | some w => decide (0 < w)
    | none => true) &&
  (match o.height with
    | some h2 => decide (0 < h2)
    | none => true)

theorem goodOpts_width {o : AssetUrlOptions} (h : goodOpts o = true) :
    ∀ w, o.width = some w → 0 < w := by
  intro w hw
  unfold goodOpts at h
  rw [hw] at h
  simp at h
  exact h.1

theorem goodOpts_height {o : AssetUrlOptions} (h : goodOpts o = true) :
    ∀ h2, o.height = some h2 → 0 < h2 := by
  intro h2 hh
  unfold goodOpts at h
  rw [hh] at h
  simp at h
  exact h.2

theorem mapM_generateAssetUrl_ok (m : AssetManager) (o : AssetUrlOptions)
    (ids : List FieldValue)
    (hall : ids.all (fun v =>
      match v with
      | FieldValue.str s => isValidAssetId s
      | _ => false) = true)
    (hopt : goodOpts o = true) :
    ids.mapM (fun idv => m.generateAssetUrl (jsToString idv) o) =
      .ok (ids.map (fun idv => assetUrlSpec m (jsToString idv) o)) := by
  induction ids with
  | nil => rfl
  | cons v vs ih =>
    rw [List.all_cons] at hall
    simp only [Bool.and_eq_true] at hall
    have h1 := hall.1
    have h2 := hall.2
    cases v with
    | str s =>
      have hid : isValidAssetId s = true := by simpa using h1
      rw [List.mapM_cons, generateAssetUrl_ok m (jsToString (FieldValue.str s)) o hid
        (goodOpts_width hopt) (goodOpts_height hopt), ih h2]
      simp [Bind.bind, Except.bind, Pure.pure, Except.pure]
    | nullv => exact absurd h1 (by simp)
    | num n => exact absurd h1 (by simp)
    | arr ws => exact absurd h1 (by simp)

theorem itemAssetUrl_ok (m : AssetManager) (o : AssetUrlOptions) (name : String) (it : Item)
    (hgood : goodIdVal (it.fieldValue name) = true) (hopt : goodOpts o = true) :
    itemAssetUrl m o name it = .ok (specItemUrlOut m o name it) := by
  unfold itemAssetUrl specItemUrlOut
  cases hv : it.fieldValue name with
  | nullv => rfl
  | num n =>
    rw [hv] at hgood
    simp [goodIdVal] at hgood
  | str s =>
    rw [hv] at hgood
    by_cases hs : s = ""
    · simp [jsFalsyV, hs]
    · have hid : isValidAssetId s = true := by simpa [goodIdVal, hs] using hgood
      have hfal : jsFalsyV (FieldValue.str s) = false := by simp [jsFalsyV, hs]
      simp only [hfal, Bool.false_eq_true, if_false]
      rw [generateAssetUrl_ok m (jsToString (FieldValue.str s)) o hid
        (goodOpts_width hopt) (goodOpts_height hopt)]
      simp [Except.map]
  | arr ids =>
    rw [hv] at hgood
    have hall : ids.all (fun v =>
        match v with
        | FieldValue.str s => isValidAssetId s
        | _ => false) = true := by simpa [goodIdVal] using hgood
    simp only [jsFalsyV, Bool.false_eq_true, if_false]
    rw [mapM_generateAssetUrl_ok m o ids hall hopt]
    simp [Except.map]

theorem mapM_itemAssetUrl_ok (m : AssetManager) (o : AssetUrlOptions) (name : String)
    (items : List Item) (hgood : ∀ it ∈ items, goodIdVal (it.fieldValue name) = true)
    (hopt : goodOpts o = true) :
    items.mapM (itemAssetUrl m o name) = .ok (items.map (specItemUrlOut m o name)) := by
  induction items with
  | nil => rfl
  | cons it its ih =>
    rw [List.mapM_cons, itemAssetUrl_ok m o name it (hgood it (by simp)) hopt,
      ih (fun x hx => hgood x (by simp [hx]))]
    simp [Bind.bind, Except.bind, Pure.pure, Except.pure]

/-- C7: shape transparency of `CollectionResult`. A null payload has
count 0, is empty, and yields null from `field` and `asset_url` for
every field name. An array payload yields from `field` one value per
wrapped item — the spec-side lookup, null for missing fields, never an
exception — and from `asset_url` (when the stored ids are pattern-valid
and the options well-formed) the per-item URL resolutions with null
entries dropped and array-valued fields flattened one level. -/
theorem c7_result_shape_transparency :
    (∀ (m : AssetManager) (o : AssetUrlOptions) (name : String),
      CollectionResult.count (CollectionQueryResult.nullr (T := Item)) = 0 ∧
      CollectionResult.isEmpty (CollectionQueryResult.nullr (T := Item)) = true ∧
      CollectionResult.field .nullr name = .nullr ∧
      CollectionResult.asset_url m o .nullr name = .ok .nullu) ∧
    (∀ (items : List Item) (name : String),
      CollectionResult.field (.arr items) name =
        .vals (items.map (fun it => specFieldLookup it name)) ∧
      ∀ vs, CollectionResult.field (.arr items) name = .vals vs →
        vs.length = items.length) ∧
    (∀ (m : AssetManager) (o : AssetUrlOptions) (name : String) (items : List Item),
      (∀ it ∈ items, goodIdVal (it.fieldValue name) = true) → goodOpts o = true →
      CollectionResult.asset_url m o (.arr items) name =
        .ok (.many (flattenUrlOuts (items.map (specItemUrlOut m o name))))) := by
  refine ⟨?_, ?_, ?_⟩
  · intro m o name
    exact ⟨rfl, rfl, rfl, rfl⟩
  · intro items name
    have hmap : (fun it => it.fieldValue name) = (fun it => specFieldLookup it name) :=
      funext (fun it => lookupField_eq_spec it name)
    constructor
    · unfold CollectionResult.field
      rw [hmap]
    · intro vs h
      simp only [CollectionResult.field] at h
      have hv := FieldOut.vals.inj h
      rw [← hv, List.length_map]
  · intro m o name items hgood hopt
    unfold CollectionResult.asset_url
    dsimp only
    rw [mapM_itemAssetUrl_ok m o name items hgood hopt]
    simp [Except.map]

/-- Item with a single asset id in its `img` field, for the C7 witness. -/
def c7ItemA : Item :=
  { id := "a", data := [("img", FieldValue.str "id1")], locale := "en-US" }

/-- Item with no `img` field, for the C7 witness. -/
def c7ItemB : Item :=
  { id := "b", data := [("title", FieldValue.str "Hello")], locale := "en-US" }

/-- Item with an array of asset ids in its `img` field, for the C7
witness. -/
def c7ItemC : Item :=
  { id := "c", data := [("img", FieldValue.arr [FieldValue.str "id2", FieldValue.str "id3"])],
    locale := "en-US" }

/-- Asset manager used by the C7 witness. -/
def c7Mgr : AssetManager :=
  { baseUrl := "https://api.vibe-cms.com", projectId := "proj1", locale := "en-US" }

/-- Witness for C7: the null payload inspections, field extraction over
an array with a missing field, and asset URL extraction that drops the
item without the field and flattens the id array. -/
theorem c7_result_shape_transparency_witness :
    (CollectionResult.count (CollectionQueryResult.nullr (T := Item)) = 0) ∧
    (CollectionResult.asset_url c7Mgr {} .nullr "img" = .ok .nullu) ∧
    (CollectionResult.field (.arr [c7ItemA, c7ItemB]) "title" =
      .vals [FieldValue.nullv, FieldValue.str "Hello"]) ∧
    (CollectionResult.asset_url c7Mgr {} (.arr [c7ItemA, c7ItemB, c7ItemC]) "img" =
      .ok (.many ["https://api.vibe-cms.com/api/assets/proj1/id1",
        "https://api.vibe-cms.com/api/assets/proj1/id2",
        "https://api.vibe-cms.com/api/assets/proj1/id3"])) := by
  refine ⟨?_, ?_, ?_, ?_⟩
  · exact (c7_result_shape_transparency.1 c7Mgr {} "img").1
  · exact (c7_result_shape_transparency.1 c7Mgr {} "img").2.2.2
  · exact ((c7_result_shape_transparency.2.1 [c7ItemA, c7ItemB] "title").1).trans (by rfl)
  · exact (c7_result_shape_transparency.2.2 c7Mgr {} "img" [c7ItemA, c7ItemB, c7ItemC]
      (by decide) (by decide)).trans (by rfl)
